import Mathlib

/-!
Shallow embedding of the workflow engine in src/backend/workflow_engine.py
(class WorkflowEngine), together with theorems settling the frozen claims
about its specification.

Modelling conventions:
* Python dicts become insertion-ordered association lists (`List (String × _)`)
  with `dictInsert` reproducing dict assignment (update in place, else append)
  and `dget` reproducing `dict.get`.
* Python values occurring in workflow data become the inductive `PyVal`.
  Floats are opaque literals (nothing in the engine computes with them).
* Exceptions become `Except PyErr`: `re.error` from `re.search` on a malformed
  pattern, and `TypeError`/`AttributeError` from ill-shaped configuration
  values (e.g. calling `.replace` or `.lower` on a non-string).
* The `re` module is a parameter `rsearch : String → String → Option Bool`:
  `rsearch pat msg = none` models `re.search(pat, msg, re.IGNORECASE)` raising
  `re.error` (malformed pattern); `some b` models a successful search with
  match/no-match.  The LLM integration object is a parameter of type `LLM`.
* Case-insensitive comparisons use ASCII lowercasing (`strLower`, mapping
  `Char.toLower`), an adequate model of `str.lower` for the engine's logic;
  string search and replacement are implemented structurally over character
  lists (`containsSub`, `pyReplaceChars`) with Python's semantics.
-/

namespace BotWF

/-- Python values as they occur in workflow data and execution contexts.
`float` carries the literal opaquely: the engine never computes with floats
(`temperature` is only passed through to the LLM call). -/
inductive PyVal where
  | none
  | str (s : String)
  | int (n : Int)
  | float (lit : String)
  | list (xs : List PyVal)
  | dict (xs : List (String × PyVal))

mutual

/-- Python `==` on `PyVal`, structurally.  (Python dict equality ignores key
order; the engine compares values only in the `variable` strategy, where no
claim involves dict-valued operands, so order-sensitive equality is an
adequate model there.  Cross-constructor comparisons are `False` in Python
for these types, as here.) -/
def pyEq : PyVal → PyVal → Bool
  | .none, .none => true
  | .str a, .str b => a == b
  | .int a, .int b => a == b
  | .float a, .float b => a == b
  | .list xs, .list ys => pyEqList xs ys
  | .dict xs, .dict ys => pyEqDict xs ys
  | _, _ => false

/-- Elementwise Python `==` on lists. -/
def pyEqList : List PyVal → List PyVal → Bool
  | [], [] => true
  | a :: as', b :: bs' => pyEq a b && pyEqList as' bs'
  | _, _ => false

/-- Pairwise Python `==` on dict entry lists (see `pyEq` on key order). -/
def pyEqDict : List (String × PyVal) → List (String × PyVal) → Bool
  | [], [] => true
  | (k, v) :: as', (k', v') :: bs' => k == k' && pyEq v v' && pyEqDict as' bs'
  | _, _ => false

end

/-- An ASCII single quote, for Python `repr` of strings. -/
def sq : String := String.singleton (Char.ofNat 39)

mutual

/-- Python `repr`, for the elements shown inside `str(list)`/`str(dict)`
(string escaping inside `repr` is not modelled; no claim renders a string
that needs escapes). -/
def pyRepr : PyVal → String
  | .none => "None"
  | .str s => sq ++ s ++ sq
  | .int n => toString n
  | .float lit => lit
  | .list xs => "[" ++ pyReprList xs ++ "]"
  | .dict xs => "\x7b" ++ pyReprDict xs ++ "\x7d"

/-- Comma-joined `repr`s of list elements. -/
def pyReprList : List PyVal → String
  | [] => ""
  | [x] => pyRepr x
  | x :: xs => pyRepr x ++ ", " ++ pyReprList xs

/-- Comma-joined `repr`s of dict entries. -/
def pyReprDict : List (String × PyVal) → String
  | [] => ""
  | [(k, v)] => sq ++ k ++ sq ++ ": " ++ pyRepr v
  | (k, v) :: xs => sq ++ k ++ sq ++ ": " ++ pyRepr v ++ ", " ++ pyReprDict xs

end

/-- Python `str()` as used when substituting a context value into a
template (`str(value)` in `_process_message_node` / `_process_ai_node`). -/
def pyStr : PyVal → String
  | .none => "None"
  | .str s => s
  | .int n => toString n
  | .float lit => lit
  | .list xs => "[" ++ pyReprList xs ++ "]"
  | .dict xs => "\x7b" ++ pyReprDict xs ++ "\x7d"

/-- Python truthiness of a `PyVal` (`if pattern` in the regex strategy).
The truthiness of an opaque float literal is modelled as: falsy exactly for
the literals 0 and 0.0. -/
def pyTruthy : PyVal → Bool
  | .none => false
  | .str s => s ≠ ""
  | .int n => n ≠ 0
  | .float lit => lit ≠ "0" && lit ≠ "0.0"
  | .list xs => !xs.isEmpty
  | .dict xs => !xs.isEmpty

/-- `dict.get(k)`: the value at the first (unique) matching key, if any. -/
def dget {α : Type} (d : List (String × α)) (k : String) : Option α :=
  (d.find? fun p => p.1 == k).map (·.2)

/-- Python dict assignment `d[k] = v`: update in place if the key exists
(keeping its position), otherwise append — insertion order preserved. -/
def dictInsert {α : Type} (d : List (String × α)) (k : String) (v : α) :
    List (String × α) :=
  if d.any (fun p => p.1 == k) then
    d.map fun p => if p.1 == k then (k, v) else p
  else
    d ++ [(k, v)]

/-- An execution context: the mutable string-keyed variable bag.  (Python
allows non-string dict keys; the engine only ever reads and writes string
keys, so string keys suffice.) -/
abbrev Ctx := List (String × PyVal)

/-- `context.get(name)` in the `variable` strategy: a missing key yields the
Python `None` object, indistinguishable from a stored `None`. -/
def ctxGet (ctx : Ctx) (k : String) : PyVal :=
  (dget ctx k).getD .none

/-- ASCII lowercasing on characters, modelling `str.lower` adequately for
the engine's comparisons. -/
def lowerChars (l : List Char) : List Char :=
  l.map Char.toLower

/-- `str.lower`, over the string's character list. -/
def strLower (s : String) : String :=
  ⟨lowerChars s.data⟩

/-- Whether the first character list is a prefix of the second. -/
def isPrefixOfChars : List Char → List Char → Bool
  | [], _ => true
  | _ :: _, [] => false
  | a :: as', b :: bs' => a == b && isPrefixOfChars as' bs'

/-- Whether `needle` occurs as a contiguous run inside `hay`. -/
def containsSub : List Char → List Char → Bool
  | [], needle => needle.isEmpty
  | hc :: rest, needle => isPrefixOfChars needle (hc :: rest) || containsSub rest needle

/-- Python `needle in hay` on strings (substring containment; the empty
needle is contained in everything). -/
def pyIn (needle hay : String) : Bool :=
  containsSub hay.data needle.data

/-- Python `str.replace` on character lists: left-to-right, non-overlapping
replacement of every occurrence of `pat` by `rep`; with an empty `pat`,
`rep` is inserted before every character and at the end, as in Python. -/
def pyReplaceChars (pat rep : List Char) (hay : List Char) : List Char :=
  if hpat : pat = [] then
    match hay with
    | [] => rep
    | c :: rest => rep ++ c :: pyReplaceChars pat rep rest
  else
    match hay with
    | [] => []
    | c :: rest =>
      if isPrefixOfChars pat (c :: rest) then
        rep ++ pyReplaceChars pat rep ((c :: rest).drop pat.length)
      else
        c :: pyReplaceChars pat rep rest
termination_by hay.length
decreasing_by
  · simp
  · simp only [List.length_drop]
    have : 1 ≤ pat.length := List.length_pos.mpr hpat
    simp only [List.length_cons]
    omega
  · simp

/-- Python `str.replace(pat, rep)` on strings. -/
def pyReplace (s pat rep : String) : String :=
  ⟨pyReplaceChars pat.data rep.data s.data⟩

/-- A node as the engine reads it: `node["id"]` (required by `__init__`),
`node.get("type")` (a tag; a non-string tag compares unequal to every tag
string, i.e. behaves as an unknown tag, so string tags suffice), and
`node.get("data", ∅)` (absent data is the empty dict). -/
structure Node where
  id : String
  type : Option String
  data : List (String × PyVal)

/-- An edge as the engine reads it: `edge.get("source")`,
`edge.get("target")` and `edge.get("data", ∅).get("condition")`.  A
non-string condition tag compares unequal to every outcome label and to
"default", i.e. behaves as an absent tag, so string tags suffice. -/
structure Edge where
  source : Option String
  target : Option String
  condition : Option String
deriving DecidableEq

/-- Raised Python exceptions reachable from the engine. -/
inductive PyErr where
  | reError
  | typeError
deriving DecidableEq

/-- The `re.search(pattern, message, re.IGNORECASE)` oracle: `none` models
`re.error` raised on a malformed pattern. -/
abbrev RSearch := String → String → Option Bool

/-- The `llm_integration.generate_response` collaborator: arguments are
prompt, system prompt, conversation history, `data.get("model")` and the
temperature value; `.error` models the call raising. -/
abbrev LLM :=
  String → String → Option PyVal → Option PyVal → PyVal → Except Unit String

/-- Template rendering (the `for key, value in context.items():
template = template.replace(...)` loops at lines 141-142 and 173-174):
each context entry, in insertion order, has all occurrences of its braced
placeholder replaced by `str(value)` in the accumulated string. -/
def renderTemplate (template : String) (context : Ctx) : String :=
  context.foldl (fun t kv => pyReplace t ("\x7b" ++ kv.1 ++ "\x7d") (pyStr kv.2)) template

/-- The braced placeholder `f"\x7b\x7bkey\x7d\x7d"` of a context key. -/
def placeholder (k : String) : String :=
  "\x7b" ++ k ++ "\x7d"

/-- `_process_message_node`: render the node's `label` against the context.
A non-string label raises `AttributeError` at the first `.replace` call
(inside the engine the context always holds `user_message`, so the loop
body runs), modelled as `typeError`. -/
def process_message_node (node : Node) (context : Ctx) : Except PyErr String :=
  match (dget node.data "label").getD (.str "") with
  | .str t => .ok (renderTemplate t context)
  | _ => .error .typeError

/-- The system-prompt template of a generation node:
`node_data.get("systemPrompt", "You are a helpful assistant.")`, which must
be a string for the subsequent `.replace` calls. -/
def sysPromptTemplate (data : List (String × PyVal)) : Except PyErr String :=
  match (dget data "systemPrompt").getD (.str "You are a helpful assistant.") with
  | .str s => .ok s
  | _ => .error .typeError

/-- The fixed fallback returned when the LLM call raises. -/
def aiFallback : String :=
  "Sorry, I encountered an error while processing your request."

/-- `_process_ai_node`: without an LLM integration, a fixed notice; else
render the system prompt and call the collaborator, catching any failure
into the fixed fallback string. -/
def process_ai_node (llm : Option LLM) (node : Node) (message : String)
    (conversation_history : Option PyVal) (context : Ctx) : Except PyErr String :=
  match llm with
  | Option.none => .ok "AI processing is not available."
  | some gen =>
    match sysPromptTemplate node.data with
    | .error e => .error e
    | .ok sp0 =>
      let sp := renderTemplate sp0 context
      match gen message sp conversation_history (dget node.data "model")
          ((dget node.data "temperature").getD (.float "0.7")) with
      | .ok r => .ok r
      | .error _ => .ok aiFallback

/-- The `keyword` strategy's scan (`for keyword in keywords:` at lines
208-211): first case-insensitive substring hit wins; a non-string keyword
raises at `.lower()`. -/
def keywordScan : List PyVal → String → Except PyErr String
  | [], _ => .ok "false"
  | .str kw :: rest, m =>
    if pyIn (strLower kw) (strLower m) then .ok "true" else keywordScan rest m
  | _ :: _, _ => .error .typeError

/-- The `keyword` strategy: scan `node_data.get("keywords", [])`.  (Python
would iterate a string value per character and a dict value per key; those
ill-shaped configurations are modelled as `typeError` and occur in no
claim.) -/
def evalKeyword (data : List (String × PyVal)) (message : String) :
    Except PyErr String :=
  match (dget data "keywords").getD (.list []) with
  | .list ks => keywordScan ks message
  | _ => .error .typeError

/-- The `regex` strategy: `if pattern and re.search(pattern, message,
re.IGNORECASE)` — a falsy pattern short-circuits to "false"; a truthy
non-string pattern raises in `re.search`; a truthy string pattern is
searched, propagating `re.error` for malformed patterns. -/
def evalRegex (rsearch : RSearch) (data : List (String × PyVal))
    (message : String) : Except PyErr String :=
  let pattern := (dget data "pattern").getD (.str "")
  if pyTruthy pattern then
    match pattern with
    | .str p =>
      match rsearch p message with
      | Option.none => .error .reError
      | some true => .ok "true"
      | some false => .ok "false"
    | _ => .error .typeError
  else
    .ok "false"

/-- One intent's keyword list scan, as in `keywordScan` but returning
whether any keyword hit. -/
def intentKeywordHit : List PyVal → String → Except PyErr Bool
  | [], _ => .ok false
  | .str kw :: rest, m =>
    if pyIn (strLower kw) (strLower m) then .ok true else intentKeywordHit rest m
  | _ :: _, _ => .error .typeError

/-- The `intent` strategy's outer scan over `intents.items()` in insertion
order: the first intent with a keyword hit names the outcome. -/
def intentScan : List (String × PyVal) → String → Except PyErr String
  | [], _ => .ok "default"
  | (name, .list kws) :: rest, m =>
    match intentKeywordHit kws m with
    | .error e => .error e
    | .ok true => .ok name
    | .ok false => intentScan rest m
  | (_, _) :: _, _ => .error .typeError

/-- The `intent` strategy: scan `node_data.get("intents", ∅)`. -/
def evalIntent (data : List (String × PyVal)) (message : String) :
    Except PyErr String :=
  match (dget data "intents").getD (.dict []) with
  | .dict items => intentScan items message
  | _ => .error .typeError

/-- The `variable` strategy: compare `context.get(variable_name)` (the
`None` object when absent) with `node_data.get("value")` (the `None`
object when unset) under Python `==`.  A non-string hashable variable name
never matches a string-keyed context, hence yields `None`; unhashable
names are outside the model and occur in no claim. -/
def evalVariable (data : List (String × PyVal)) (context : Ctx) :
    Except PyErr String :=
  let vval : PyVal :=
    match (dget data "variable").getD (.str "") with
    | .str s => ctxGet context s
    | _ => .none
  let expected := (dget data "value").getD .none
  .ok (if pyEq vval expected then "true" else "false")

/-- `_evaluate_condition` (lines 190-240): dispatch on
`node_data.get("conditionType", "keyword")`; any other tag — including a
present-but-unknown string and any non-string tag — falls through to
"default". -/
def evaluate_condition (rsearch : RSearch) (node : Node) (message : String)
    (context : Ctx) : Except PyErr String :=
  match (dget node.data "conditionType").getD (.str "keyword") with
  | .str "keyword" => evalKeyword node.data message
  | .str "regex" => evalRegex rsearch node.data message
  | .str "intent" => evalIntent node.data message
  | .str "variable" => evalVariable node.data context
  | _ => .ok "default"

/-- The engine state built by `WorkflowEngine.__init__`: the node dict
(insertion-ordered, last duplicate value wins), the ordered edge list, the
optional LLM integration and the resolved start node id. -/
structure WorkflowEngine where
  nodes : List (String × Node)
  edges : List Edge
  llm_integration : Option LLM
  start_node_id : Option String

/-- The dict comprehension at line 19:
`self.nodes = ∅; for node in nodes: self.nodes[node["id"]] = node`. -/
def buildNodesDict (nodeList : List Node) : List (String × Node) :=
  nodeList.foldl (fun d n => dictInsert d n.id n) []

/-- Python truthiness of `self.start_node_id` (`if not self.start_node_id`):
`None` and the empty string are falsy. -/
def truthyOptStr : Option String → Bool
  | Option.none => false
  | some s => s ≠ ""

/-- The start-node scan at lines 24-32: the first dict entry whose node has
`type == "start"`, else — when that id is falsy and the dict is non-empty —
the first key of the dict. -/
def resolveStart (d : List (String × Node)) : Option String :=
  let s := (d.find? fun p => p.2.type == some "start").map (·.1)
  if !truthyOptStr s && !d.isEmpty then d.head?.map (·.1) else s

/-- `WorkflowEngine.__init__` from a workflow's node list, edge list and
optional LLM integration. -/
def WorkflowEngine.init (nodeList : List Node) (edges : List Edge)
    (llm : Option LLM) : WorkflowEngine :=
  let d := buildNodesDict nodeList
  ⟨d, edges, llm, resolveStart d⟩

/-- The next node for a non-condition node (lines 110-114): the target of
the first edge whose source is the current node, `None` when there is no
such edge or it has no target. -/
def firstEdgeTarget (edges : List Edge) (cur : String) : Option String :=
  match edges.find? fun e => e.source == some cur with
  | Option.none => Option.none
  | some e => e.target

/-- The next node after a condition node (lines 92-102): the target of the
first edge whose source is the current node AND whose condition tag equals
the outcome label or equals "default" — a single pass with a disjunctive
test, not a two-pass label-then-default search. -/
def condNext (edges : List Edge) (cur : String) (lbl : String) : Option String :=
  match edges.find? fun e =>
      e.source == some cur && (e.condition == some lbl || e.condition == some "default") with
  | Option.none => Option.none
  | some e => e.target

/-- One loop iteration of the trace: the node id entered, and the response
the node produced (`some` exactly for message/ai nodes). -/
structure StepEvent where
  nodeId : String
  emitted : Option String
deriving DecidableEq

/-- The loop's outcome: the final pending response, plus the instrumented
trace of iterations (bookkeeping only — it feeds no control decision). -/
structure LoopOut where
  response : Option String
  trace : List StepEvent
deriving DecidableEq

/-- The nodes of `d` whose key is not yet visited: the measure that shrinks
at every loop iteration that recurses. -/
def unvisitedCount (d : List (String × Node)) (visited : List String) : Nat :=
  (d.filter fun p => !visited.contains p.1).length

theorem unvisitedCount_lt {d : List (String × Node)} {cur : String}
    {visited : List String} {n : Node} (hmem : (cur, n) ∈ d)
    (hnv : visited.contains cur = false) :
    unvisitedCount d (cur :: visited) < unvisitedCount d visited := by
  unfold unvisitedCount
  have hsub : List.Sublist (d.filter fun p => !(cur :: visited).contains p.1)
      (d.filter fun p => !visited.contains p.1) := by
    apply List.monotone_filter_right
    intro p hp
    have hp' : ((cur :: visited).contains p.1) = false := by
      simpa using hp
    have : (p.1 == cur || visited.contains p.1) = false := hp'
    simp only [Bool.or_eq_false_iff] at this
    simpa using this.2
  rcases Nat.lt_or_ge (d.filter fun p => !(cur :: visited).contains p.1).length
      (d.filter fun p => !visited.contains p.1).length with hlt | hge
  · exact hlt
  · exfalso
    have heq := hsub.eq_of_length_le hge
    have hmemOld : (cur, n) ∈ d.filter fun p => !visited.contains p.1 := by
      refine List.mem_filter.mpr ⟨hmem, ?_⟩
      simpa using hnv
    rw [← heq] at hmemOld
    have hq : (!(cur :: visited).contains cur) = true :=
      (List.mem_filter.mp hmemOld).2
    simp at hq

/-- The traversal loop of `process_message` (lines 72-116).  Each iteration:
stop when the current id is falsy or already visited; mark it visited; stop
when it names no node; dispatch on the node type — `message`/`ai` set the
pending response and proceed via the first outgoing edge, `condition`
evaluates and proceeds via `condNext`, anything else (including `start`)
just proceeds via the first outgoing edge.  The returned `trace` records
one `StepEvent` per iteration (instrumentation only).  A raised exception
(`re.error` from a condition node, a type error from an ill-shaped node)
aborts the loop and propagates. -/
def runLoop (eng : WorkflowEngine) (rsearch : RSearch) (message : String)
    (conversation_history : Option PyVal) (context : Ctx)
    (current : Option String) (visited : List String)
    (response : Option String) : Except PyErr LoopOut :=
  match current with
  | Option.none => .ok ⟨response, []⟩
  | some cur =>
    if hstop : cur = "" ∨ visited.contains cur = true then .ok ⟨response, []⟩
    else
      match hfind : eng.nodes.find? (fun p => p.1 == cur) with
      | Option.none => .ok ⟨response, [⟨cur, Option.none⟩]⟩
      | some (k, node) =>
        let ntype := node.type.getD ""
        if ntype = "message" then
          match process_message_node node context with
          | .error e => .error e
          | .ok r =>
            match runLoop eng rsearch message conversation_history context
                (firstEdgeTarget eng.edges cur) (cur :: visited) (some r) with
            | .error e => .error e
            | .ok out => .ok ⟨out.response, ⟨cur, some r⟩ :: out.trace⟩
        else if ntype = "condition" then
          match evaluate_condition rsearch node message context with
          | .error e => .error e
          | .ok lbl =>
            match runLoop eng rsearch message conversation_history context
                (condNext eng.edges cur lbl) (cur :: visited) response with
            | .error e => .error e
            | .ok out => .ok ⟨out.response, ⟨cur, Option.none⟩ :: out.trace⟩
        else if ntype = "ai" then
          match process_ai_node eng.llm_integration node message conversation_history context with
          | .error e => .error e
          | .ok r =>
            match runLoop eng rsearch message conversation_history context
                (firstEdgeTarget eng.edges cur) (cur :: visited) (some r) with
            | .error e => .error e
            | .ok out => .ok ⟨out.response, ⟨cur, some r⟩ :: out.trace⟩
        else
          match runLoop eng rsearch message conversation_history context
              (firstEdgeTarget eng.edges cur) (cur :: visited) response with
          | .error e => .error e
          | .ok out => .ok ⟨out.response, ⟨cur, Option.none⟩ :: out.trace⟩
termination_by unvisitedCount eng.nodes visited
decreasing_by
  all_goals
    have hpred := List.find?_some hfind
    have hmem := List.mem_of_find?_eq_some hfind
    have hkey : k = cur := by simpa using hpred
    have hnv : visited.contains cur = false := by
      rcases Bool.eq_false_or_eq_true (visited.contains cur) with h | h
      · exact absurd (Or.inr h) hstop
      · exact h
    exact unvisitedCount_lt (hkey ▸ hmem) hnv

/-! Unfolding lemmas for `runLoop`, one per loop shape (the definition uses
well-founded recursion, so these drive both symbolic reasoning and concrete
evaluation below). -/

theorem runLoop_none (eng : WorkflowEngine) (rsearch : RSearch) (message : String)
    (hist : Option PyVal) (ctx : Ctx) (visited : List String) (response : Option String) :
    runLoop eng rsearch message hist ctx Option.none visited response = .ok ⟨response, []⟩ := by
  rw [runLoop]

theorem runLoop_stop (eng : WorkflowEngine) (rsearch : RSearch) (message : String)
    (hist : Option PyVal) (ctx : Ctx) (cur : String) (visited : List String)
    (response : Option String) (hstop : cur = "" ∨ visited.contains cur = true) :
    runLoop eng rsearch message hist ctx (some cur) visited response = .ok ⟨response, []⟩ := by
  rw [runLoop]
  rw [dif_pos hstop]

theorem runLoop_notfound (eng : WorkflowEngine) (rsearch : RSearch) (message : String)
    (hist : Option PyVal) (ctx : Ctx) (cur : String) (visited : List String)
    (response : Option String) (hstop : ¬(cur = "" ∨ visited.contains cur = true))
    (hfind : eng.nodes.find? (fun p => p.1 == cur) = Option.none) :
    runLoop eng rsearch message hist ctx (some cur) visited response =
      .ok ⟨response, [⟨cur, Option.none⟩]⟩ := by
  rw [runLoop]
  rw [dif_neg hstop]
  split
  · rfl
  · rename_i heq
    rw [hfind] at heq
    cases heq

theorem runLoop_message (eng : WorkflowEngine) (rsearch : RSearch) (message : String)
    (hist : Option PyVal) (ctx : Ctx) (cur : String) (visited : List String)
    (response : Option String) (k : String) (node : Node)
    (hstop : ¬(cur = "" ∨ visited.contains cur = true))
    (hfind : eng.nodes.find? (fun p => p.1 == cur) = some (k, node))
    (htype : node.type.getD "" = "message") :
    runLoop eng rsearch message hist ctx (some cur) visited response =
      match process_message_node node ctx with
      | .error e => .error e
      | .ok r =>
        match runLoop eng rsearch message hist ctx
            (firstEdgeTarget eng.edges cur) (cur :: visited) (some r) with
        | .error e => .error e
        | .ok out => .ok ⟨out.response, ⟨cur, some r⟩ :: out.trace⟩ := by
  rw [runLoop]
  rw [dif_neg hstop]
  split
  · rename_i heq
    rw [hfind] at heq
    cases heq
  · rename_i k' node' heq
    rw [hfind] at heq
    cases heq
    rw [if_pos htype]

theorem runLoop_condition (eng : WorkflowEngine) (rsearch : RSearch) (message : String)
    (hist : Option PyVal) (ctx : Ctx) (cur : String) (visited : List String)
    (response : Option String) (k : String) (node : Node)
    (hstop : ¬(cur = "" ∨ visited.contains cur = true))
    (hfind : eng.nodes.find? (fun p => p.1 == cur) = some (k, node))
    (htype : node.type.getD "" = "condition") :
    runLoop eng rsearch message hist ctx (some cur) visited response =
      match evaluate_condition rsearch node message ctx with
      | .error e => .error e
      | .ok lbl =>
        match runLoop eng rsearch message hist ctx
            (condNext eng.edges cur lbl) (cur :: visited) response with
        | .error e => .error e
        | .ok out => .ok ⟨out.response, ⟨cur, Option.none⟩ :: out.trace⟩ := by
  rw [runLoop]
  rw [dif_neg hstop]
  split
  · rename_i heq
    rw [hfind] at heq
    cases heq
  · rename_i k' node' heq
    rw [hfind] at heq
    cases heq
    rw [if_neg (by rw [htype]; decide), if_pos htype]

theorem runLoop_ai (eng : WorkflowEngine) (rsearch : RSearch) (message : String)
    (hist : Option PyVal) (ctx : Ctx) (cur : String) (visited : List String)
    (response : Option String) (k : String) (node : Node)
    (hstop : ¬(cur = "" ∨ visited.contains cur = true))
    (hfind : eng.nodes.find? (fun p => p.1 == cur) = some (k, node))
    (htype : node.type.getD "" = "ai") :
    runLoop eng rsearch message hist ctx (some cur) visited response =
      match process_ai_node eng.llm_integration node message hist ctx with
      | .error e => .error e
      | .ok r =>
        match runLoop eng rsearch message hist ctx
            (firstEdgeTarget eng.edges cur) (cur :: visited) (some r) with
        | .error e => .error e
        | .ok out => .ok ⟨out.response, ⟨cur, some r⟩ :: out.trace⟩ := by
  rw [runLoop]
  rw [dif_neg hstop]
  split
  · rename_i heq
    rw [hfind] at heq
    cases heq
  · rename_i k' node' heq
    rw [hfind] at heq
    cases heq
    rw [if_neg (by rw [htype]; decide), if_neg (by rw [htype]; decide), if_pos htype]

theorem runLoop_other (eng : WorkflowEngine) (rsearch : RSearch) (message : String)
    (hist : Option PyVal) (ctx : Ctx) (cur : String) (visited : List String)
    (response : Option String) (k : String) (node : Node)
    (hstop : ¬(cur = "" ∨ visited.contains cur = true))
    (hfind : eng.nodes.find? (fun p => p.1 == cur) = some (k, node))
    (ht1 : node.type.getD "" ≠ "message") (ht2 : node.type.getD "" ≠ "condition")
    (ht3 : node.type.getD "" ≠ "ai") :
    runLoop eng rsearch message hist ctx (some cur) visited response =
      match runLoop eng rsearch message hist ctx
          (firstEdgeTarget eng.edges cur) (cur :: visited) response with
      | .error e => .error e
      | .ok out => .ok ⟨out.response, ⟨cur, Option.none⟩ :: out.trace⟩ := by
  rw [runLoop]
  rw [dif_neg hstop]
  split
  · rename_i heq
    rw [hfind] at heq
    cases heq
  · rename_i k' node' heq
    rw [hfind] at heq
    cases heq
    rw [if_neg ht1, if_neg ht2, if_neg ht3]

/-- One-step unfolding of `runLoop` with a non-dependent body: the loop
body as written in the source, usable directly for rewriting and for
evaluating concrete executions. -/
theorem runLoop_eq (eng : WorkflowEngine) (rsearch : RSearch) (message : String)
    (hist : Option PyVal) (ctx : Ctx) (current : Option String)
    (visited : List String) (response : Option String) :
    runLoop eng rsearch message hist ctx current visited response =
      match current with
      | Option.none => .ok ⟨response, []⟩
      | some cur =>
        if cur = "" ∨ visited.contains cur = true then .ok ⟨response, []⟩
        else
          match eng.nodes.find? (fun p => p.1 == cur) with
          | Option.none => .ok ⟨response, [⟨cur, Option.none⟩]⟩
          | some (_, node) =>
            if node.type.getD "" = "message" then
              match process_message_node node ctx with
              | .error e => .error e
              | .ok r =>
                match runLoop eng rsearch message hist ctx
                    (firstEdgeTarget eng.edges cur) (cur :: visited) (some r) with
                | .error e => .error e
                | .ok out => .ok ⟨out.response, ⟨cur, some r⟩ :: out.trace⟩
            else if node.type.getD "" = "condition" then
              match evaluate_condition rsearch node message ctx with
              | .error e => .error e
              | .ok lbl =>
                match runLoop eng rsearch message hist ctx
                    (condNext eng.edges cur lbl) (cur :: visited) response with
                | .error e => .error e
                | .ok out => .ok ⟨out.response, ⟨cur, Option.none⟩ :: out.trace⟩
            else if node.type.getD "" = "ai" then
              match process_ai_node eng.llm_integration node message hist ctx with
              | .error e => .error e
              | .ok r =>
                match runLoop eng rsearch message hist ctx
                    (firstEdgeTarget eng.edges cur) (cur :: visited) (some r) with
                | .error e => .error e
                | .ok out => .ok ⟨out.response, ⟨cur, some r⟩ :: out.trace⟩
            else
              match runLoop eng rsearch message hist ctx
                  (firstEdgeTarget eng.edges cur) (cur :: visited) response with
              | .error e => .error e
              | .ok out => .ok ⟨out.response, ⟨cur, Option.none⟩ :: out.trace⟩ := by
  rcases current with _ | cur
  · rw [runLoop_none]
  · by_cases hstop : cur = "" ∨ visited.contains cur = true
    · rw [runLoop_stop _ _ _ _ _ _ _ _ hstop]
      have hstop' : cur = "" ∨ cur ∈ visited := by simpa using hstop
      simp [hstop']
    · have hstop' : ¬(cur = "" ∨ cur ∈ visited) := by simpa using hstop
      cases hfind : eng.nodes.find? (fun p => p.1 == cur) with
      | none =>
        rw [runLoop_notfound _ _ _ _ _ _ _ _ hstop hfind]
        simp [hstop', hfind]
      | some pr =>
        obtain ⟨k, node⟩ := pr
        by_cases ht1 : node.type.getD "" = "message"
        · rw [runLoop_message _ _ _ _ _ _ _ _ k node hstop hfind ht1]
          simp [hstop', hfind, ht1]
        · by_cases ht2 : node.type.getD "" = "condition"
          · rw [runLoop_condition _ _ _ _ _ _ _ _ k node hstop hfind ht2]
            simp [hstop', hfind, ht1, ht2]
          · by_cases ht3 : node.type.getD "" = "ai"
            · rw [runLoop_ai _ _ _ _ _ _ _ _ k node hstop hfind ht3]
              simp [hstop', hfind, ht1, ht2, ht3]
            · rw [runLoop_other _ _ _ _ _ _ _ _ k node hstop hfind ht1 ht2 ht3]
              simp [hstop', hfind, ht1, ht2, ht3]

/-- The fixed response when the engine has no nodes or no truthy start id. -/
def noWorkflowResponse : String :=
  "Sorry, this bot doesn't have a configured workflow."

/-- The fixed default when no node set a response during the run. -/
def defaultResponse : String :=
  "I'm not sure how to respond to that."

/-- The result dict of `process_message`. -/
structure ExecResult where
  response : String
  context : Ctx

/-- `WorkflowEngine.process_message` (lines 34-125): short-circuit when the
node dict is empty or the start id is falsy, returning the caller's context
(`context or ∅`) untouched; otherwise insert `user_message`, run the loop
from the start node with an empty visited set and no pending response, and
return the last pending response (or the fixed default) with the mutated
context. -/
def WorkflowEngine.process_message (eng : WorkflowEngine) (rsearch : RSearch)
    (message : String) (conversation_history : Option PyVal)
    (context : Option Ctx) : Except PyErr ExecResult :=
  if eng.nodes.isEmpty || !truthyOptStr eng.start_node_id then
    .ok ⟨noWorkflowResponse, context.getD []⟩
  else
    let ctx := dictInsert (context.getD []) "user_message" (.str message)
    match runLoop eng rsearch message conversation_history ctx
        eng.start_node_id [] Option.none with
    | .error e => .error e
    | .ok out => .ok ⟨out.response.getD defaultResponse, ctx⟩

/-- The responses emitted during a run, in order: one entry per
message/ai iteration of the trace. -/
def emittedOf (t : List StepEvent) : List String :=
  t.filterMap (fun ev => ev.emitted)

theorem emittedOf_nil : emittedOf [] = [] := rfl

theorem emittedOf_cons_some (c : String) (r : String) (t : List StepEvent) :
    emittedOf (⟨c, some r⟩ :: t) = r :: emittedOf t := by
  simp [emittedOf]

theorem emittedOf_cons_none (c : String) (t : List StepEvent) :
    emittedOf (⟨c, Option.none⟩ :: t) = emittedOf t := by
  simp [emittedOf]

theorem getLast?_cons_or (a : String) (l : List String) :
    (a :: l).getLast? = l.getLast?.or (some a) := by
  cases l with
  | nil => simp [Option.or]
  | cons b t =>
    rw [List.getLast?_cons_cons]
    rcases h : (b :: t).getLast? with _ | v
    · exact absurd h (by simp [List.getLast?_eq_none_iff])
    · simp [Option.or]

theorem orSome_or (x : Option String) (a : String) (y : Option String) :
    (x.or (some a)).or y = x.or (some a) := by
  cases x <;> simp [Option.or]

/-- The loop invariant: a successful run's final response is the last
emitted response (or the initial pending one); the visited trace has
pairwise-distinct node ids, none of them previously visited; every id
except possibly the final one names a node of the graph; and only
message/ai nodes emit. -/
theorem runLoop_spec (eng : WorkflowEngine) (rsearch : RSearch) (message : String)
    (hist : Option PyVal) (ctx : Ctx) (current : Option String)
    (visited : List String) (response : Option String) :
    ∀ out : LoopOut,
      runLoop eng rsearch message hist ctx current visited response = .ok out →
      out.response = (emittedOf out.trace).getLast?.or response ∧
      (out.trace.map StepEvent.nodeId).Nodup ∧
      (∀ i ∈ out.trace.map StepEvent.nodeId, i ∉ visited) ∧
      (∀ i ∈ (out.trace.map StepEvent.nodeId).dropLast, ∃ nd, (i, nd) ∈ eng.nodes) ∧
      (∀ ev ∈ out.trace, ev.emitted.isSome = true →
        ∃ nd, (ev.nodeId, nd) ∈ eng.nodes ∧
          (nd.type.getD "" = "message" ∨ nd.type.getD "" = "ai")) := by
  induction current, visited, response using runLoop.induct eng rsearch message hist ctx
  case case1 visited response =>
    intro out h
    rw [runLoop_none] at h
    injection h with h
    subst h
    refine ⟨by simp [emittedOf, Option.or], by simp, by simp, by simp, by simp⟩
  case case2 visited response s hstop =>
    intro out h
    rw [runLoop_stop _ _ _ _ _ _ _ _ hstop] at h
    injection h with h
    subst h
    refine ⟨by simp [emittedOf, Option.or], by simp, by simp, by simp, by simp⟩
  case case3 visited response s hstop hfind =>
    intro out h
    rw [runLoop_notfound _ _ _ _ _ _ _ _ hstop hfind] at h
    injection h with h
    subst h
    have hnv : s ∉ visited := by
      have h2 : ¬(s = "" ∨ s ∈ visited) := by simpa using hstop
      exact fun hm => h2 (Or.inr hm)
    refine ⟨by simp [emittedOf, Option.or], by simp, ?_, by simp, ?_⟩
    · intro i hi
      simp at hi
      subst hi
      exact hnv
    · intro ev hev hsome
      simp at hev
      subst hev
      simp at hsome
  case case4 visited response s hstop k node hfind ntype htype e hproc =>
    intro out h
    rw [runLoop_message _ _ _ _ _ _ _ _ k node hstop hfind htype, hproc] at h
    simp at h
  case case5 visited response s hstop k node hfind ntype htype r hproc e hrec IH =>
    intro out h
    rw [runLoop_message _ _ _ _ _ _ _ _ k node hstop hfind htype, hproc] at h
    simp only [] at h
    rw [hrec] at h
    simp at h
  case case6 visited response s hstop k node hfind ntype htype r hproc out1 hrec IH =>
    intro out h
    rw [runLoop_message _ _ _ _ _ _ _ _ k node hstop hfind htype, hproc] at h
    simp only [] at h
    rw [hrec] at h
    simp only [] at h
    injection h with h
    subst h
    obtain ⟨ih1, ih2, ih3, ih4, ih5⟩ := IH out1 hrec
    have hks : k = s := by simpa using List.find?_some hfind
    have hmem : (s, node) ∈ eng.nodes := hks ▸ List.mem_of_find?_eq_some hfind
    have hnv : s ∉ visited := by
      have h2 : ¬(s = "" ∨ s ∈ visited) := by simpa using hstop
      exact fun hm => h2 (Or.inr hm)
    refine ⟨?_, ?_, ?_, ?_, ?_⟩
    · simp only [emittedOf_cons_some]
      rw [getLast?_cons_or, orSome_or]
      exact ih1
    · simp only [List.map_cons]
      rw [List.nodup_cons]
      refine ⟨fun hmem' => ?_, ih2⟩
      exact (ih3 s hmem') (List.mem_cons_self s visited)
    · intro i hi
      simp only [List.map_cons, List.mem_cons] at hi
      rcases hi with rfl | hi
      · exact hnv
      · exact fun hv => (ih3 i hi) (List.mem_cons_of_mem s hv)
    · simp only [List.map_cons]
      cases htr : out1.trace.map StepEvent.nodeId with
      | nil => simp
      | cons b bs =>
        rw [List.dropLast_cons₂]
        intro i hi
        rcases List.mem_cons.mp hi with rfl | hi
        · exact ⟨node, hmem⟩
        · exact ih4 i (by rw [htr]; exact hi)
    · intro ev hev hsome
      rcases List.mem_cons.mp hev with rfl | hev
      · exact ⟨node, hmem, Or.inl htype⟩
      · exact ih5 ev hev hsome
  case case7 visited response s hstop k node hfind ntype hm htype e heval =>
    intro out h
    rw [runLoop_condition _ _ _ _ _ _ _ _ k node hstop hfind htype, heval] at h
    simp at h
  case case8 visited response s hstop k node hfind ntype hm htype lbl heval e hrec IH =>
    intro out h
    rw [runLoop_condition _ _ _ _ _ _ _ _ k node hstop hfind htype, heval] at h
    simp only [] at h
    rw [hrec] at h
    simp at h
  case case9 visited response s hstop k node hfind ntype hm htype lbl heval out1 hrec IH =>
    intro out h
    rw [runLoop_condition _ _ _ _ _ _ _ _ k node hstop hfind htype, heval] at h
    simp only [] at h
    rw [hrec] at h
    simp only [] at h
    injection h with h
    subst h
    obtain ⟨ih1, ih2, ih3, ih4, ih5⟩ := IH out1 hrec
    have hks : k = s := by simpa using List.find?_some hfind
    have hmem : (s, node) ∈ eng.nodes := hks ▸ List.mem_of_find?_eq_some hfind
    have hnv : s ∉ visited := by
      have h2 : ¬(s = "" ∨ s ∈ visited) := by simpa using hstop
      exact fun hm2 => h2 (Or.inr hm2)
    refine ⟨?_, ?_, ?_, ?_, ?_⟩
    · simp only [emittedOf_cons_none]
      exact ih1
    · simp only [List.map_cons]
      rw [List.nodup_cons]
      refine ⟨fun hmem' => ?_, ih2⟩
      exact (ih3 s hmem') (List.mem_cons_self s visited)
    · intro i hi
      simp only [List.map_cons, List.mem_cons] at hi
      rcases hi with rfl | hi
      · exact hnv
      · exact fun hv => (ih3 i hi) (List.mem_cons_of_mem s hv)
    · simp only [List.map_cons]
      cases htr : out1.trace.map StepEvent.nodeId with
      | nil => simp
      | cons b bs =>
        rw [List.dropLast_cons₂]
        intro i hi
        rcases List.mem_cons.mp hi with rfl | hi
        · exact ⟨node, hmem⟩
        · exact ih4 i (by rw [htr]; exact hi)
    · intro ev hev hsome
      rcases List.mem_cons.mp hev with rfl | hev
      · simp at hsome
      · exact ih5 ev hev hsome
  case case10 visited response s hstop k node hfind ntype hm1 hm2 htype e hproc =>
    intro out h
    rw [runLoop_ai _ _ _ _ _ _ _ _ k node hstop hfind htype, hproc] at h
    simp at h
  case case11 visited response s hstop k node hfind ntype hm1 hm2 htype r hproc e hrec IH =>
    intro out h
    rw [runLoop_ai _ _ _ _ _ _ _ _ k node hstop hfind htype, hproc] at h
    simp only [] at h
    rw [hrec] at h
    simp at h
  case case12 visited response s hstop k node hfind ntype hm1 hm2 htype r hproc out1 hrec IH =>
    intro out h
    rw [runLoop_ai _ _ _ _ _ _ _ _ k node hstop hfind htype, hproc] at h
    simp only [] at h
    rw [hrec] at h
    simp only [] at h
    injection h with h
    subst h
    obtain ⟨ih1, ih2, ih3, ih4, ih5⟩ := IH out1 hrec
    have hks : k = s := by simpa using List.find?_some hfind
    have hmem : (s, node) ∈ eng.nodes := hks ▸ List.mem_of_find?_eq_some hfind
    have hnv : s ∉ visited := by
      have h2 : ¬(s = "" ∨ s ∈ visited) := by simpa using hstop
      exact fun hm => h2 (Or.inr hm)
    refine ⟨?_, ?_, ?_, ?_, ?_⟩
    · simp only [emittedOf_cons_some]
      rw [getLast?_cons_or, orSome_or]
      exact ih1
    · simp only [List.map_cons]
      rw [List.nodup_cons]
      refine ⟨fun hmem' => ?_, ih2⟩
      exact (ih3 s hmem') (List.mem_cons_self s visited)
    · intro i hi
      simp only [List.map_cons, List.mem_cons] at hi
      rcases hi with rfl | hi
      · exact hnv
      · exact fun hv => (ih3 i hi) (List.mem_cons_of_mem s hv)
    · simp only [List.map_cons]
      cases htr : out1.trace.map StepEvent.nodeId with
      | nil => simp
      | cons b bs =>
        rw [List.dropLast_cons₂]
        intro i hi
        rcases List.mem_cons.mp hi with rfl | hi
        · exact ⟨node, hmem⟩
        · exact ih4 i (by rw [htr]; exact hi)
    · intro ev hev hsome
      rcases List.mem_cons.mp hev with rfl | hev
      · exact ⟨node, hmem, Or.inr htype⟩
      · exact ih5 ev hev hsome
  case case13 visited response s hstop k node hfind ntype hm1 hm2 hm3 e hrec IH =>
    intro out h
    rw [runLoop_other _ _ _ _ _ _ _ _ k node hstop hfind hm1 hm2 hm3] at h
    rw [hrec] at h
    simp at h
  case case14 visited response s hstop k node hfind ntype hm1 hm2 hm3 out1 hrec IH =>
    intro out h
    rw [runLoop_other _ _ _ _ _ _ _ _ k node hstop hfind hm1 hm2 hm3] at h
    rw [hrec] at h
    simp only [] at h
    injection h with h
    subst h
    obtain ⟨ih1, ih2, ih3, ih4, ih5⟩ := IH out1 hrec
    have hks : k = s := by simpa using List.find?_some hfind
    have hmem : (s, node) ∈ eng.nodes := hks ▸ List.mem_of_find?_eq_some hfind
    have hnv : s ∉ visited := by
      have h2 : ¬(s = "" ∨ s ∈ visited) := by simpa using hstop
      exact fun hm => h2 (Or.inr hm)
    refine ⟨?_, ?_, ?_, ?_, ?_⟩
    · simp only [emittedOf_cons_none]
      exact ih1
    · simp only [List.map_cons]
      rw [List.nodup_cons]
      refine ⟨fun hmem' => ?_, ih2⟩
      exact (ih3 s hmem') (List.mem_cons_self s visited)
    · intro i hi
      simp only [List.map_cons, List.mem_cons] at hi
      rcases hi with rfl | hi
      · exact hnv
      · exact fun hv => (ih3 i hi) (List.mem_cons_of_mem s hv)
    · simp only [List.map_cons]
      cases htr : out1.trace.map StepEvent.nodeId with
      | nil => simp
      | cons b bs =>
        rw [List.dropLast_cons₂]
        intro i hi
        rcases List.mem_cons.mp hi with rfl | hi
        · exact ⟨node, hmem⟩
        · exact ih4 i (by rw [htr]; exact hi)
    · intro ev hev hsome
      rcases List.mem_cons.mp hev with rfl | hev
      · simp at hsome
      · exact ih5 ev hev hsome

/-! ## Claim C2 -/

/-- C2 counterexample: for the zero-node graph the engine returns the fixed
"no workflow configured" response, but — contrary to the claim — the
inbound-message key is NOT inserted in the returned context: the context is
handed back exactly as supplied (here: the empty dict), and looking up
`user_message` in it yields nothing. -/
theorem c2_counterexample :
    (WorkflowEngine.init [] [] Option.none).process_message (fun _ _ => some false)
        "hello" Option.none (some []) = .ok ⟨noWorkflowResponse, []⟩ ∧
    dget ([] : Ctx) "user_message" = Option.none := by
  exact ⟨rfl, rfl⟩

/-- C2 (amended): for every graph with zero nodes and every message,
history and context, `process_message` returns the fixed "no workflow
configured" response together with the input context completely unchanged
(the empty dict when none was supplied); in particular the inbound-message
key is NOT inserted in this short-circuit case. -/
theorem c2_empty_graph_short_circuits (edges : List Edge) (llm : Option LLM)
    (rsearch : RSearch) (message : String) (hist : Option PyVal)
    (context : Option Ctx) :
    (WorkflowEngine.init [] edges llm).process_message rsearch message hist context =
      .ok ⟨noWorkflowResponse, context.getD []⟩ := by
  simp [WorkflowEngine.init, buildNodesDict, resolveStart, truthyOptStr,
    WorkflowEngine.process_message]

/-! ## Claim C9 -/

/-- C9: a condition node whose data has no `conditionType` key at all is
evaluated by the keyword strategy (the dict-get default), while a
present-but-unknown string tag falls through to the outcome "default". -/
theorem c9_missing_conditionType_defaults_to_keyword (rsearch : RSearch)
    (node : Node) (message : String) (context : Ctx)
    (habs : dget node.data "conditionType" = Option.none) :
    evaluate_condition rsearch node message context = evalKeyword node.data message ∧
    (∀ tag : String, tag ≠ "keyword" → tag ≠ "regex" → tag ≠ "intent" →
      tag ≠ "variable" → ∀ node' : Node,
        dget node'.data "conditionType" = some (.str tag) →
        evaluate_condition rsearch node' message context = .ok "default") := by
  constructor
  · unfold evaluate_condition
    rw [habs]
    rfl
  · intro tag h1 h2 h3 h4 node' hget
    unfold evaluate_condition
    rw [hget]
    simp only [Option.getD_some]
    split <;> simp_all

/-- C9 witness: with no `conditionType` key, a keyword node evaluates via
the keyword strategy (here to "true"), and a node with the unknown tag
"fancy" yields "default". -/
theorem c9_witness :
    evaluate_condition (fun _ _ => some false)
        ⟨"n", some "condition", [("keywords", PyVal.list [PyVal.str "hi"])]⟩
        "hi there" [] =
      evalKeyword [("keywords", PyVal.list [PyVal.str "hi"])] "hi there" ∧
    evaluate_condition (fun _ _ => some false)
        ⟨"n2", some "condition", [("conditionType", PyVal.str "fancy")]⟩
        "hi there" [] = .ok "default" := by
  constructor
  · exact (c9_missing_conditionType_defaults_to_keyword (fun _ _ => some false)
      ⟨"n", some "condition", [("keywords", PyVal.list [PyVal.str "hi"])]⟩
      "hi there" [] rfl).1
  · exact (c9_missing_conditionType_defaults_to_keyword (fun _ _ => some false)
      ⟨"n", some "condition", [("keywords", PyVal.list [PyVal.str "hi"])]⟩
      "hi there" [] rfl).2 "fancy" (by decide) (by decide) (by decide) (by decide)
      ⟨"n2", some "condition", [("conditionType", PyVal.str "fancy")]⟩ rfl

/-! ## Claim C10 -/

theorem pyEq_none_right (v : PyVal) (h : v ≠ .none) : pyEq v .none = false := by
  cases v
  · exact absurd rfl h
  all_goals rfl

theorem pyEq_none_left (v : PyVal) (h : v ≠ .none) : pyEq .none v = false := by
  cases v
  · exact absurd rfl h
  all_goals rfl

/-- C10: in the `variable` strategy, an absent context variable and an
unset expected value are both the Python `None` object, which compare
equal — so both-absent yields "true"; when exactly one of the two is the
`None` object the comparison fails and the outcome is "false". -/
theorem c10_variable_absent_equals_unset (rsearch : RSearch) (node : Node)
    (message : String) (context : Ctx) (vname : String)
    (hct : dget node.data "conditionType" = some (.str "variable"))
    (hvar : dget node.data "variable" = some (.str vname)) :
    (ctxGet context vname = .none → (dget node.data "value").getD .none = .none →
      evaluate_condition rsearch node message context = .ok "true") ∧
    (ctxGet context vname = .none → (dget node.data "value").getD .none ≠ .none →
      evaluate_condition rsearch node message context = .ok "false") ∧
    (ctxGet context vname ≠ .none → (dget node.data "value").getD .none = .none →
      evaluate_condition rsearch node message context = .ok "false") := by
  have heval : evaluate_condition rsearch node message context =
      evalVariable node.data context := by
    unfold evaluate_condition
    rw [hct]
    rfl
  have hvv : evalVariable node.data context =
      .ok (if pyEq (ctxGet context vname) ((dget node.data "value").getD .none)
            then "true" else "false") := by
    unfold evalVariable
    rw [hvar]
    rfl
  refine ⟨?_, ?_, ?_⟩
  · intro ha hb
    rw [heval, hvv, ha, hb]
    rfl
  · intro ha hb
    rw [heval, hvv, ha, pyEq_none_left _ hb]
    rfl
  · intro ha hb
    rw [heval, hvv, hb, pyEq_none_right _ ha]
    rfl

/-- C10 witness: with variable "flag" absent from the context and no
expected value configured, the strategy yields "true"; with the variable
present (and the expected value still unset) it yields "false". -/
theorem c10_witness :
    evaluate_condition (fun _ _ => some false)
        ⟨"v", some "condition",
          [("conditionType", PyVal.str "variable"), ("variable", PyVal.str "flag")]⟩
        "msg" [] = .ok "true" ∧
    evaluate_condition (fun _ _ => some false)
        ⟨"v", some "condition",
          [("conditionType", PyVal.str "variable"), ("variable", PyVal.str "flag")]⟩
        "msg" [("flag", PyVal.str "on")] = .ok "false" := by
  constructor
  · exact (c10_variable_absent_equals_unset (fun _ _ => some false)
      ⟨"v", some "condition",
        [("conditionType", PyVal.str "variable"), ("variable", PyVal.str "flag")]⟩
      "msg" [] "flag" rfl rfl).1 rfl rfl
  · exact ((c10_variable_absent_equals_unset (fun _ _ => some false)
      ⟨"v", some "condition",
        [("conditionType", PyVal.str "variable"), ("variable", PyVal.str "flag")]⟩
      "msg" [("flag", PyVal.str "on")] "flag" rfl rfl).2.2
      (by simp [ctxGet, dget]) rfl)

/-! ## Claim C4 -/

/-- Modelled from Python's `re` module at the patterns occurring in this
file: compiling the pattern "(" raises `re.error` (missing closing
parenthesis), so searching with it is the error case; every other pattern
used here is a literal without metacharacters, searched case-insensitively
(`re.IGNORECASE`). -/
def reModel : RSearch := fun p m =>
  if p = "(" then Option.none
  else some (pyIn (strLower p) (strLower m))

/-- C4: the regex strategy is NOT total — a malformed pattern is neither
rejected at graph load time (`__init__` never inspects patterns) nor
evaluated as "false": `re.search` raises `re.error` at evaluation time and
nothing catches it, so the exception propagates out of the evaluator and
out of `process_message`. -/
theorem c4_malformed_regex_raises :
    evaluate_condition reModel
        ⟨"c", some "condition",
          [("conditionType", PyVal.str "regex"), ("pattern", PyVal.str "(")]⟩
        "hello" [] = .error .reError ∧
    (WorkflowEngine.init
        [⟨"c", some "condition",
          [("conditionType", PyVal.str "regex"), ("pattern", PyVal.str "(")]⟩]
        [] Option.none).process_message reModel "hello" Option.none Option.none =
      .error .reError := by
  constructor
  · rfl
  · simp [WorkflowEngine.init, buildNodesDict, dictInsert, resolveStart, truthyOptStr,
      WorkflowEngine.process_message, runLoop_eq, dget, evaluate_condition, evalRegex,
      pyTruthy, reModel]

/-! ## Claim C3 -/

/-- C3 counterexample: rendering the template consisting of the placeholder
of key `a` against the context mapping `a` to the text of placeholder `b`
and `b` to "X" yields "X": the value substituted for `a` IS re-scanned and
substituted by the later key `b`, contrary to the claim that such text
appears un-substituted in the output. -/
theorem c3_counterexample :
    (WorkflowEngine.init [⟨"m", some "message", [("label", PyVal.str "\x7ba\x7d")]⟩]
        [] Option.none).process_message (fun _ _ => some false) "hi" Option.none
        (some [("a", PyVal.str "\x7bb\x7d"), ("b", PyVal.str "X")]) =
      .ok ⟨"X", [("a", PyVal.str "\x7bb\x7d"), ("b", PyVal.str "X"),
                 ("user_message", PyVal.str "hi")]⟩ ∧
    ("X" : String) ≠ "\x7bb\x7d" := by
  constructor
  · simp [WorkflowEngine.init, buildNodesDict, dictInsert, resolveStart, truthyOptStr,
      WorkflowEngine.process_message, runLoop_eq, dget, firstEdgeTarget,
      process_message_node, renderTemplate, pyReplace, pyReplaceChars,
      isPrefixOfChars, pyStr]
  · decide

/-- C3 (amended): template rendering is a left fold over the context in
insertion order — rendering under the empty context is the identity, and
rendering under `context ++ [(k, v)]` replaces every occurrence of the
placeholder of `k` by `str(v)` in the WHOLE string already rendered under
the earlier keys.  Hence text substituted for an earlier key is re-scanned
for later keys' placeholders; a name that is no key of the context is
never used as a replacement pattern. -/
theorem c3_amended (template : String) (context : Ctx) (k : String) (v : PyVal) :
    renderTemplate template [] = template ∧
    renderTemplate template (context ++ [(k, v)]) =
      pyReplace (renderTemplate template context) (placeholder k) (pyStr v) := by
  refine ⟨rfl, ?_⟩
  simp [renderTemplate, List.foldl_append, placeholder]

/-! ## Claim C8 -/

theorem foldl_dictInsert_eq (l : List Node) : ∀ acc : List (String × Node),
    (∀ n ∈ l, acc.any (fun p => p.1 == n.id) = false) → (l.map Node.id).Nodup →
    l.foldl (fun d n => dictInsert d n.id n) acc = acc ++ l.map (fun n => (n.id, n)) := by
  induction l with
  | nil =>
    intro acc _ _
    simp
  | cons a l ih =>
    intro acc hdisj hnodup
    simp only [List.foldl_cons]
    have hins : dictInsert acc a.id a = acc ++ [(a.id, a)] := by
      unfold dictInsert
      rw [if_neg (by simp [hdisj a (List.mem_cons_self a l)])]
    rw [hins, ih (acc ++ [(a.id, a)]) ?_ (List.Nodup.of_cons hnodup)]
    · simp
    · intro n hn
      have h1 := hdisj n (List.mem_cons_of_mem a hn)
      have h2 : ¬(a.id == n.id) = true := by
        simp only [beq_iff_eq]
        intro he
        have hmem : a.id ∈ l.map Node.id := he ▸ List.mem_map_of_mem Node.id hn
        rw [List.map_cons, List.nodup_cons] at hnodup
        exact hnodup.1 hmem
      simp [List.any_append, h1, h2]

/-- With unique node ids, the node dict lists exactly the declared nodes in
declared order. -/
theorem buildNodesDict_eq_map (l : List Node) (hnodup : (l.map Node.id).Nodup) :
    buildNodesDict l = l.map (fun n => (n.id, n)) := by
  unfold buildNodesDict
  rw [foldl_dictInsert_eq l [] (by simp) hnodup]
  simp

/-- C8 counterexample: when the first `start`-typed node has the empty-string
id, the falsy-id check (`if not self.start_node_id`) discards it and the
engine falls back to the first node in declared order — here "a" — whereas
the claim demands the first start-typed node (id "") to be the start node. -/
theorem c8_counterexample :
    (WorkflowEngine.init [⟨"a", some "message", []⟩, ⟨"", some "start", []⟩]
        [] Option.none).start_node_id = some "a" ∧
    ([⟨"a", some "message", []⟩, ⟨"", some "start", []⟩] : List Node).find?
        (fun n => n.type == some "start") = some ⟨"", some "start", []⟩ ∧
    ("" : String) ≠ "a" := by
  exact ⟨rfl, rfl, by decide⟩

/-- C8 (amended): for every non-empty graph with unique, non-empty node ids
(uniqueness is the graph-validity contract the spec places on callers, and
non-emptiness rules out Python's falsy-id fallback), the resolved start node
is the first node of type "start" in the declared/insertion order, and the
first node in declared order when no node has type "start". -/
theorem c8_start_node_selection (nodeList : List Node) (edges : List Edge)
    (llm : Option LLM) (hne : nodeList ≠ [])
    (hids : ∀ n ∈ nodeList, n.id ≠ "")
    (hnodup : (nodeList.map Node.id).Nodup) :
    (WorkflowEngine.init nodeList edges llm).start_node_id =
      some (match nodeList.find? (fun n => n.type == some "start") with
            | some n => n.id
            | Option.none => (nodeList.head hne).id) := by
  show resolveStart (buildNodesDict nodeList) = _
  rw [buildNodesDict_eq_map nodeList hnodup]
  unfold resolveStart
  have hfp : (fun p : String × Node => p.2.type == some "start") ∘
      (fun n : Node => (n.id, n)) = fun n : Node => n.type == some "start" := rfl
  rw [List.find?_map, hfp]
  cases hf : nodeList.find? (fun n => n.type == some "start") with
  | some n =>
    have hmem := List.mem_of_find?_eq_some hf
    have hid : n.id ≠ "" := hids n hmem
    simp [truthyOptStr, hid]
  | none =>
    have hmapne : nodeList.map (fun n => (n.id, n)) ≠ [] := by
      simpa using hne
    simp only [Option.map_none', truthyOptStr, Bool.not_false]
    rw [if_pos (by simp [hmapne])]
    rw [List.head?_eq_head (l := nodeList.map (fun n => (n.id, n))) hmapne]
    simp [List.head_map]

/-- C8 witness: in a graph listing a message node first and a start node
second, the start node "b" is selected, not the first node. -/
theorem c8_witness :
    (WorkflowEngine.init [⟨"a", some "message", []⟩, ⟨"b", some "start", []⟩]
        [] Option.none).start_node_id = some "b" := by
  have h := c8_start_node_selection
    [⟨"a", some "message", []⟩, ⟨"b", some "start", []⟩] [] Option.none
    (by simp)
    (by
      intro n hn
      simp only [List.mem_cons, List.mem_singleton] at hn
      rcases hn with rfl | hn
      · decide
      · rcases hn with rfl | hn
        · decide
        · simp at hn)
    (by simp)
  simpa using h

/-! ## Claim C1 -/

/-- C1 counterexample: at a condition node whose evaluator outcome is
"true", with a "default"-tagged edge listed BEFORE the "true"-tagged edge,
the engine takes the default edge (response "DEFAULT"), not the
label-matching edge (whose target would answer "MATCHED") — refuting the
claim that the label-matching edge is the one taken in every such graph. -/
theorem c1_counterexample :
    evaluate_condition reModel
        ⟨"c", some "condition",
          [("conditionType", PyVal.str "keyword"),
           ("keywords", PyVal.list [PyVal.str "hi"])]⟩ "hi there"
        [("user_message", PyVal.str "hi there")] = .ok "true" ∧
    (WorkflowEngine.init
        [⟨"c", some "condition",
           [("conditionType", PyVal.str "keyword"),
            ("keywords", PyVal.list [PyVal.str "hi"])]⟩,
         ⟨"d", some "message", [("label", PyVal.str "DEFAULT")]⟩,
         ⟨"m", some "message", [("label", PyVal.str "MATCHED")]⟩]
        [⟨some "c", some "d", some "default"⟩, ⟨some "c", some "m", some "true"⟩]
        Option.none).process_message reModel "hi there" Option.none Option.none =
      .ok ⟨"DEFAULT", [("user_message", PyVal.str "hi there")]⟩ := by
  constructor
  · rfl
  · simp [WorkflowEngine.init, buildNodesDict, dictInsert, resolveStart, truthyOptStr,
      WorkflowEngine.process_message, runLoop_eq, dget, firstEdgeTarget, condNext,
      evaluate_condition, evalKeyword, keywordScan, pyIn, strLower, lowerChars,
      containsSub, isPrefixOfChars, process_message_node, renderTemplate, pyReplace,
      pyReplaceChars, pyStr]

theorem find?_append_first {α : Type} (p : α → Bool) (a : α) (pre post : List α)
    (ha : p a = true) (hpre : ∀ b ∈ pre, ¬p b = true) :
    List.find? p (pre ++ a :: post) = some a := by
  induction pre with
  | nil =>
    rw [List.nil_append]
    exact List.find?_cons_of_pos post ha
  | cons b pre' ih =>
    rw [List.cons_append,
      List.find?_cons_of_neg _ (hpre b (List.mem_cons_self b pre'))]
    exact ih (fun b' hb' => hpre b' (List.mem_cons_of_mem b hb'))

/-- C1 (amended): at a condition node the engine performs a SINGLE ordered
pass over the edges from that node, selecting the first edge whose
condition tag equals the outcome label OR equals "default" (so an earlier
"default" edge wins over a later label-matching edge); if no edge from the
node carries either tag, there is no next node and traversal halts after
this node. -/
theorem c1_condition_edge_selection :
    (∀ (edges : List Edge) (cur lbl : String) (pre post : List Edge) (e : Edge),
      edges = pre ++ e :: post →
      e.source = some cur →
      (e.condition = some lbl ∨ e.condition = some "default") →
      (∀ e' ∈ pre, ¬(e'.source = some cur ∧
        (e'.condition = some lbl ∨ e'.condition = some "default"))) →
      condNext edges cur lbl = e.target) ∧
    (∀ (edges : List Edge) (cur lbl : String),
      (∀ e ∈ edges, ¬(e.source = some cur ∧
        (e.condition = some lbl ∨ e.condition = some "default"))) →
      condNext edges cur lbl = Option.none) := by
  have hpred : ∀ (cur lbl : String) (e' : Edge),
      ((e'.source == some cur &&
        (e'.condition == some lbl || e'.condition == some "default")) = true) ↔
      (e'.source = some cur ∧
        (e'.condition = some lbl ∨ e'.condition = some "default")) := by
    intro cur lbl e'
    simp
  constructor
  · intro edges cur lbl pre post e hsplit hsrc htag hpre
    subst hsplit
    unfold condNext
    have hfound : List.find?
        (fun e' => e'.source == some cur &&
          (e'.condition == some lbl || e'.condition == some "default"))
        (pre ++ e :: post) = some e :=
      find?_append_first _ e pre post ((hpred cur lbl e).mpr ⟨hsrc, htag⟩)
        (fun e' he' hp => hpre e' he' ((hpred cur lbl e').mp hp))
    rw [hfound]
  · intro edges cur lbl hall
    unfold condNext
    have hnone : List.find?
        (fun e' => e'.source == some cur &&
          (e'.condition == some lbl || e'.condition == some "default"))
        edges = Option.none :=
      List.find?_eq_none.mpr (fun e' he' hp => hall e' he' ((hpred cur lbl e').mp hp))
    rw [hnone]

/-- C1 witness for the amended selection rule: with edges
`c -[no tag]-> x` then `c -[true]-> y`, outcome "true" selects the second
edge's target `y`; and with no matching or default tag at all the
selection is empty (traversal halts). -/
theorem c1_witness :
    condNext [⟨some "c", some "x", Option.none⟩, ⟨some "c", some "y", some "true"⟩]
        "c" "true" = some "y" ∧
    condNext [⟨some "c", some "x", some "true"⟩] "c" "false" = Option.none := by
  constructor
  · exact c1_condition_edge_selection.1
      [⟨some "c", some "x", Option.none⟩, ⟨some "c", some "y", some "true"⟩]
      "c" "true" [⟨some "c", some "x", Option.none⟩] []
      ⟨some "c", some "y", some "true"⟩ rfl rfl (Or.inl rfl) (by decide)
  · exact c1_condition_edge_selection.2 [⟨some "c", some "x", some "true"⟩]
      "c" "false" (by decide)

/-! ## Claim C5 -/

/-- C5 counterexample: with one node "A" and a dangling edge to the absent
id "ghost", the loop body runs twice — once for "A" and once for "ghost"
(which is marked visited and then fails the lookup) — so the loop performs
2 steps on a 1-node graph, refuting the claimed bound of at most as many
steps as the graph has nodes. -/
theorem c5_counterexample :
    runLoop (WorkflowEngine.init [⟨"A", some "message", [("label", PyVal.str "GO")]⟩]
        [⟨some "A", some "ghost", Option.none⟩] Option.none) reModel "m" Option.none
        [("user_message", PyVal.str "m")] (some "A") [] Option.none =
      .ok ⟨some "GO", [⟨"A", some "GO"⟩, ⟨"ghost", Option.none⟩]⟩ ∧
    (WorkflowEngine.init [⟨"A", some "message", [("label", PyVal.str "GO")]⟩]
        [⟨some "A", some "ghost", Option.none⟩] Option.none).nodes.length = 1 ∧
    ([⟨"A", some "GO"⟩, ⟨"ghost", Option.none⟩] : List StepEvent).length = 2 := by
  refine ⟨?_, rfl, rfl⟩
  simp [WorkflowEngine.init, buildNodesDict, dictInsert, resolveStart, truthyOptStr,
    runLoop_eq, dget, firstEdgeTarget, process_message_node, renderTemplate,
    pyReplace, pyReplaceChars, isPrefixOfChars, pyStr]

/-- C5 (amended): every run of the traversal loop terminates (the loop is a
total function here), visits pairwise-distinct node ids — so each node at
most once — and performs at most one step more than the graph has nodes;
the possible extra step is the terminal iteration on a dangling edge
target that names no node. -/
theorem c5_loop_visits_each_node_at_most_once (eng : WorkflowEngine)
    (rsearch : RSearch) (message : String) (hist : Option PyVal) (ctx : Ctx)
    (current : Option String) (out : LoopOut)
    (h : runLoop eng rsearch message hist ctx current [] Option.none = .ok out) :
    (out.trace.map StepEvent.nodeId).Nodup ∧
    out.trace.length ≤ eng.nodes.length + 1 := by
  obtain ⟨-, h2, -, h4, -⟩ :=
    runLoop_spec eng rsearch message hist ctx current [] Option.none out h
  refine ⟨h2, ?_⟩
  have hsub : (out.trace.map StepEvent.nodeId).dropLast ⊆ eng.nodes.map Prod.fst := by
    intro i hi
    obtain ⟨nd, hnd⟩ := h4 i hi
    exact List.mem_map_of_mem Prod.fst hnd
  have hnodup' : (out.trace.map StepEvent.nodeId).dropLast.Nodup :=
    h2.sublist (List.dropLast_sublist _)
  have hlen := (List.subperm_of_subset hnodup' hsub).length_le
  rw [List.length_dropLast, List.length_map, List.length_map] at hlen
  omega

/-- C5 witness: on the cyclic graph `A -> B -> A` the loop halts after
visiting A and B exactly once each — two distinct steps on a two-node
graph, within the amended bound. -/
theorem c5_witness :
    runLoop (WorkflowEngine.init [⟨"A", Option.none, []⟩, ⟨"B", Option.none, []⟩]
        [⟨some "A", some "B", Option.none⟩, ⟨some "B", some "A", Option.none⟩]
        Option.none) reModel "m" Option.none [] (some "A") [] Option.none =
      .ok ⟨Option.none, [⟨"A", Option.none⟩, ⟨"B", Option.none⟩]⟩ ∧
    ((["A", "B"] : List String).Nodup ∧
      ([⟨"A", Option.none⟩, ⟨"B", Option.none⟩] : List StepEvent).length ≤
        (WorkflowEngine.init [⟨"A", Option.none, []⟩, ⟨"B", Option.none, []⟩]
          [⟨some "A", some "B", Option.none⟩, ⟨some "B", some "A", Option.none⟩]
          Option.none).nodes.length + 1) := by
  have hrun : runLoop (WorkflowEngine.init [⟨"A", Option.none, []⟩, ⟨"B", Option.none, []⟩]
      [⟨some "A", some "B", Option.none⟩, ⟨some "B", some "A", Option.none⟩]
      Option.none) reModel "m" Option.none [] (some "A") [] Option.none =
      .ok ⟨Option.none, [⟨"A", Option.none⟩, ⟨"B", Option.none⟩]⟩ := by
    simp [WorkflowEngine.init, buildNodesDict, dictInsert, resolveStart, truthyOptStr,
      runLoop_eq, dget, firstEdgeTarget]
  refine ⟨hrun, ?_⟩
  have h := c5_loop_visits_each_node_at_most_once _ reModel "m" Option.none []
    (some "A") _ hrun
  simpa using h

/-! ## Claim C6 -/

/-- C6: when the LLM call of an `ai` node raises, `_process_ai_node`
catches the failure and returns the fixed fallback string, and the loop
records that fallback as the pending response and proceeds via the node's
unconditional first outgoing edge; the failure itself contributes no
exception to the run. -/
theorem c6_generation_failure_falls_back_and_proceeds
    (eng : WorkflowEngine) (rsearch : RSearch) (message : String)
    (hist : Option PyVal) (ctx : Ctx) (cur : String) (visited : List String)
    (response : Option String) (k : String) (node : Node) (gen : LLM) (tp : String)
    (e : Unit)
    (hstop : ¬(cur = "" ∨ visited.contains cur = true))
    (hfind : eng.nodes.find? (fun p => p.1 == cur) = some (k, node))
    (htype : node.type.getD "" = "ai")
    (hllm : eng.llm_integration = some gen)
    (hsp : sysPromptTemplate node.data = .ok tp)
    (hgen : gen message (renderTemplate tp ctx) hist (dget node.data "model")
        ((dget node.data "temperature").getD (.float "0.7")) = .error e) :
    process_ai_node eng.llm_integration node message hist ctx = .ok aiFallback ∧
    runLoop eng rsearch message hist ctx (some cur) visited response =
      (match runLoop eng rsearch message hist ctx (firstEdgeTarget eng.edges cur)
          (cur :: visited) (some aiFallback) with
        | .error e' => .error e'
        | .ok out => .ok ⟨out.response, ⟨cur, some aiFallback⟩ :: out.trace⟩) := by
  have hai : process_ai_node eng.llm_integration node message hist ctx = .ok aiFallback := by
    unfold process_ai_node
    rw [hllm]
    simp only []
    rw [hsp]
    simp only []
    rw [hgen]
  refine ⟨hai, ?_⟩
  rw [runLoop_ai eng rsearch message hist ctx cur visited response k node hstop hfind htype,
    hai]

/-- C6 fixture: an LLM whose generate call always raises. -/
def c6LLM : LLM := fun _ _ _ _ _ => .error ()

/-- C6 fixture: an `ai` node wired to a subsequent message node. -/
def c6Eng : WorkflowEngine := WorkflowEngine.init
  [⟨"g", some "ai", []⟩, ⟨"r", some "message", [("label", PyVal.str "Recovered")]⟩]
  [⟨some "g", some "r", Option.none⟩] (some c6LLM)

/-- C6 witness: end to end, the failing generation node yields the fixed
fallback as pending response and the run still proceeds to the following
message node, whose text is the final answer — nothing propagates out of
`process_message`. -/
theorem c6_witness :
    c6Eng.process_message reModel "q" Option.none Option.none =
      .ok ⟨"Recovered", [("user_message", PyVal.str "q")]⟩ := by
  have hstep := c6_generation_failure_falls_back_and_proceeds c6Eng reModel "q"
    Option.none [("user_message", PyVal.str "q")] "g" [] Option.none
    "g" ⟨"g", some "ai", []⟩ c6LLM "You are a helpful assistant." ()
    (by simp) rfl rfl rfl rfl rfl
  have hrun : runLoop c6Eng reModel "q" Option.none
      (dictInsert ((Option.none : Option Ctx).getD []) "user_message" (PyVal.str "q"))
      c6Eng.start_node_id [] Option.none =
      .ok ⟨some "Recovered", [⟨"g", some aiFallback⟩, ⟨"r", some "Recovered"⟩]⟩ := by
    show runLoop c6Eng reModel "q" Option.none [("user_message", PyVal.str "q")]
        (some "g") [] Option.none = _
    rw [hstep.2]
    simp [c6Eng, WorkflowEngine.init, buildNodesDict, dictInsert, resolveStart,
      runLoop_eq, dget, firstEdgeTarget, process_message_node, renderTemplate,
      pyReplace, pyReplaceChars, isPrefixOfChars, pyStr]
  unfold WorkflowEngine.process_message
  rw [show (c6Eng.nodes.isEmpty || !truthyOptStr c6Eng.start_node_id) = false from rfl]
  simp only [Bool.false_eq_true, if_false]
  rw [hrun]
  rfl

/-! ## Claim C7 -/

/-- C7: the response of `process_message` is the LAST response emitted by a
message/ai node during the run (each such node overwrites the pending
response), or the fixed default when no node emitted one; and every
emitting trace entry belongs to a node of type "message" or "ai" (condition
and start nodes never set a response). -/
theorem c7_last_response_wins (eng : WorkflowEngine) (rsearch : RSearch)
    (message : String) (hist : Option PyVal) (ctxIn : Option Ctx) (out : LoopOut)
    (hne : eng.nodes.isEmpty = false)
    (hst : truthyOptStr eng.start_node_id = true)
    (hrun : runLoop eng rsearch message hist
        (dictInsert (ctxIn.getD []) "user_message" (.str message))
        eng.start_node_id [] Option.none = .ok out) :
    eng.process_message rsearch message hist ctxIn =
      .ok ⟨(emittedOf out.trace).getLast?.getD defaultResponse,
           dictInsert (ctxIn.getD []) "user_message" (.str message)⟩ ∧
    (∀ ev ∈ out.trace, ev.emitted.isSome = true →
      ∃ nd, (ev.nodeId, nd) ∈ eng.nodes ∧
        (nd.type.getD "" = "message" ∨ nd.type.getD "" = "ai")) := by
  obtain ⟨h1, -, -, -, h5⟩ :=
    runLoop_spec eng rsearch message hist _ eng.start_node_id [] Option.none out hrun
  refine ⟨?_, h5⟩
  have hcond : (eng.nodes.isEmpty || !truthyOptStr eng.start_node_id) = false := by
    rw [hne, hst]
    rfl
  unfold WorkflowEngine.process_message
  rw [hcond]
  simp only [Bool.false_eq_true, if_false]
  rw [hrun]
  simp only []
  rw [h1, Option.or_none]

/-- C7 fixture: two message nodes in sequence; the second overwrites the
first's pending response. -/
def c7Eng : WorkflowEngine := WorkflowEngine.init
  [⟨"m1", some "message", [("label", PyVal.str "first")]⟩,
   ⟨"m2", some "message", [("label", PyVal.str "second")]⟩]
  [⟨some "m1", some "m2", Option.none⟩] Option.none

/-- C7 witness: with both message nodes visited, the run answers with the
LAST one's text ("second"), not the first. -/
theorem c7_witness :
    c7Eng.process_message reModel "q" Option.none Option.none =
      .ok ⟨"second", [("user_message", PyVal.str "q")]⟩ := by
  have hrun : runLoop c7Eng reModel "q" Option.none
      [("user_message", PyVal.str "q")] (some "m1") [] Option.none =
      .ok ⟨some "second", [⟨"m1", some "first"⟩, ⟨"m2", some "second"⟩]⟩ := by
    simp [c7Eng, WorkflowEngine.init, buildNodesDict, dictInsert, resolveStart,
      runLoop_eq, dget, firstEdgeTarget, process_message_node, renderTemplate,
      pyReplace, pyReplaceChars, isPrefixOfChars, pyStr]
  have h := (c7_last_response_wins c7Eng reModel "q" Option.none Option.none
    ⟨some "second", [⟨"m1", some "first"⟩, ⟨"m2", some "second"⟩]⟩ rfl rfl hrun).1
  simpa [emittedOf] using h

end BotWF
